import Mathlib

/-!
Verification of the live voice session controller of the
ChatGPT-Voice-Confidence-MVP repository.

The embedding translates the TypeScript sources:
- src/services/gemini.ts : encodeAudio (bytes to base64 via btoa),
  decodeAudio (base64 to bytes via atob), decodeAudioData
  (PCM16 bytes to an audio buffer, whose duration we model).
- src/App.tsx : the App component refs and handlers
  (scriptProcessor.onaudioprocess, the live session onmessage handler,
  stopAllPlayback, togglePause, endSession, startLiveSession).

Modelling conventions: JavaScript strings are Lean String values; byte
arrays are lists of natural numbers below 256; audio-clock times and
buffer durations are rationals; the nondeterministic Date.now ids and
timestamps are omitted from records, as no observable behaviour depends
on them. The truthiness test `s.trim()` of JavaScript is modelled by
`hasContent`, which holds exactly when the string has a non-whitespace
character.
-/

/-- Alphabet used by btoa and atob for base64, in sextet order. -/
def base64Chars : List Char :=
  "ABCDEFGHIJKLMNOPQRSTUVWXYZabcdefghijklmnopqrstuvwxyz0123456789+/".toList

/-- Character emitted by btoa for a sextet value below 64. -/
def sextetToChar (v : ℕ) : Char := base64Chars.getD v '?'

/-- Sextet value recovered by atob from a base64 character. -/
def charToSextet (c : Char) : ℕ := base64Chars.indexOf c

/-- Embeds encodeAudio of src/services/gemini.ts: the byte array is turned
into a binary string with String.fromCharCode and then base64-encoded with
btoa. The composite maps each 3-byte group to 4 alphabet characters, padding
the final 1- or 2-byte group with the character =. -/
def encodeAudio : List ℕ → List Char
  | [] => []
  | [b1] =>
      [sextetToChar (b1 / 4), sextetToChar (b1 % 4 * 16), '=', '=']
  | [b1, b2] =>
      [sextetToChar (b1 / 4), sextetToChar (b1 % 4 * 16 + b2 / 16),
       sextetToChar (b2 % 16 * 4), '=']
  | b1 :: b2 :: b3 :: rest =>
      sextetToChar (b1 / 4) :: sextetToChar (b1 % 4 * 16 + b2 / 16) ::
      sextetToChar (b2 % 16 * 4 + b3 / 64) :: sextetToChar (b3 % 64) ::
      encodeAudio rest

/-- Embeds decodeAudio of src/services/gemini.ts: atob decodes the base64
string and each resulting character code becomes one byte. Well-formed input
is a sequence of 4-character groups, with = padding allowed only in the last
group; on other input atob throws, which we model by stopping. -/
def decodeAudio : List Char → List ℕ
  | c1 :: c2 :: c3 :: c4 :: rest =>
      if c3 = '=' then
        [charToSextet c1 * 4 + charToSextet c2 / 16]
      else if c4 = '=' then
        [charToSextet c1 * 4 + charToSextet c2 / 16,
         charToSextet c2 % 16 * 16 + charToSextet c3 / 4]
      else
        (charToSextet c1 * 4 + charToSextet c2 / 16) ::
        (charToSextet c2 % 16 * 16 + charToSextet c3 / 4) ::
        (charToSextet c3 % 4 * 64 + charToSextet c4) ::
        decodeAudio rest
  | _ => []

/-- Truncation of a rational toward zero, the ToIntegerOrInfinity step of
the JavaScript ToInt16 abstract operation for a finite number. -/
def ratTrunc (x : ℚ) : ℤ := if 0 ≤ x then ⌊x⌋ else ⌈x⌉

/-- The JavaScript ToInt16 conversion applied on assignment into an
Int16Array element: truncate toward zero, reduce modulo 2 ^ 16, and map
residues at or above 2 ^ 15 to the negative range. No clamping occurs. -/
def toInt16 (x : ℚ) : ℤ :=
  if 32768 ≤ ratTrunc x % 65536 then ratTrunc x % 65536 - 65536
  else ratTrunc x % 65536

/-- SessionState enum of src/types.ts. -/
inductive SessionState where
  | idle
  | listening
  | processing
  | paused
  | ended
  | error
deriving DecidableEq, Repr

/-- Speaker role of a ChatMessage, per src/types.ts. -/
inductive Role where
  | user
  | ai
deriving DecidableEq, Repr

/-- ChatMessage of src/types.ts; the Date.now id is omitted. -/
structure ChatMessage where
  role : Role
  text : String
  isVoice : Bool
deriving DecidableEq, Repr

/-- TranscriptItem of src/types.ts as constructed by the live handlers;
the Date.now timestamp is omitted. -/
structure TranscriptItem where
  id : String
  type : String
  spoken : String
  displayed : String
  translation : String
  confidence : ℚ
  isAI : Bool
deriving DecidableEq, Repr

/-- One playback unit held in sourcesRef: the scheduled start time passed
to source.start and the duration of the decoded buffer. -/
structure SchedUnit where
  start : ℚ
  duration : ℚ
deriving DecidableEq, Repr

/-- The mutable state of the App component that the voice session
handlers read and write: the state ref, the shared transcription buffer
currentTranscriptionRef, the committed turns currentSessionTranscript,
the chat history, the live caption item, the playback cursor
nextStartTimeRef, the active playback set sourcesRef, the toast, and the
voiceSessionEnded and showFeedbackModal flags. UI-only state (sidebar,
captions toggle, input text, saved sessions list) is omitted. -/
structure AppState where
  state : SessionState
  currentTranscription : String
  currentSessionTranscript : List ChatMessage
  chatHistory : List ChatMessage
  activeItem : Option TranscriptItem
  nextStartTime : ℚ
  sources : List SchedUnit
  toast : Option String
  voiceSessionEnded : Bool
  showFeedbackModal : Bool

/-- One inbound server message as inspected by the onmessage handler of
startLiveSession: the optional transcription delta of each direction, the
turnComplete marker, presence of serverContent.modelTurn, the optional
inline audio bytes of the model turn, and the interrupted flag. -/
structure ServerMessage where
  inputTranscription : Option String
  outputTranscription : Option String
  turnComplete : Bool
  modelTurn : Bool
  audioData : Option (List ℕ)
  interrupted : Bool
deriving DecidableEq, Repr

/-- Truthiness of the JavaScript expression s.trim(): true exactly when
the string contains a character that is not whitespace. -/
def hasContent (s : String) : Bool := s.data.any (fun c => !c.isWhitespace)

/-- Duration in seconds of the buffer built by decodeAudioData of
src/services/gemini.ts from a PCM16 byte array at 24 kHz mono: the
Int16Array view has byteLength / 2 frames and duration frames / 24000. -/
def bufferDuration (bytes : List ℕ) : ℚ := ((bytes.length / 2 : ℕ) : ℚ) / 24000

/-- Embeds stopAllPlayback of src/App.tsx: stop every source in
sourcesRef (a no-op for already finished ones), clear the set, and reset
nextStartTimeRef to 0. -/
def stopAllPlayback (s : AppState) : AppState :=
  { s with sources := [], nextStartTime := 0 }

/-- Caption item built for an input transcription delta (id live-input,
confidence 0.95, isAI false). -/
def liveInputItem (t : String) : TranscriptItem :=
  { id := "live-input", type := "hinglish", spoken := t, displayed := t,
    translation := "", confidence := 95/100, isAI := false }

/-- Caption item built for an output transcription delta (id live-output,
confidence 1.0, isAI true). -/
def liveOutputItem (t : String) : TranscriptItem :=
  { id := "live-output", type := "hinglish", spoken := t, displayed := t,
    translation := "", confidence := 1, isAI := true }

/-- Embeds the onmessage callback of startLiveSession in src/App.tsx,
processing one inbound message at a given output audio clock reading.
Branches appear in source order: the early return while paused, the
input transcription delta, the output transcription delta, the
turnComplete flush of the shared buffer, the audio chunk scheduling, and
finally the interrupted check. -/
def onMessage (s : AppState) (m : ServerMessage) (clock : ℚ) : AppState :=
  if s.state = SessionState.paused then s
  else
    let s1 :=
      match m.inputTranscription with
      | some text =>
          let t := s.currentTranscription ++ text
          { s with currentTranscription := t, activeItem := some (liveInputItem t) }
      | none => s
    let s2 :=
      match m.outputTranscription with
      | some text =>
          let t := s1.currentTranscription ++ text
          { s1 with currentTranscription := t, activeItem := some (liveOutputItem t) }
      | none => s1
    let s3 :=
      if m.turnComplete then
        let s3a :=
          if hasContent s2.currentTranscription then
            { s2 with currentSessionTranscript := s2.currentSessionTranscript ++
                [{ role := if m.modelTurn then Role.ai else Role.user,
                   text := s2.currentTranscription, isVoice := true }] }
          else s2
        { s3a with currentTranscription := "", activeItem := none }
      else s2
    let s4 :=
      match m.audioData with
      | some bytes =>
          let start := max s3.nextStartTime clock
          { s3 with
              sources := s3.sources ++ [{ start := start, duration := bufferDuration bytes }],
              nextStartTime := start + bufferDuration bytes }
      | none => s3
    if m.interrupted then stopAllPlayback s4 else s4

/-- Folds onMessage over a list of messages paired with the audio clock
reading at which each is processed. -/
def runMessages (s : AppState) (ms : List (ServerMessage × ℚ)) : AppState :=
  ms.foldl (fun st p => onMessage st p.1 p.2) s

/-- Embeds one sample of the scriptProcessor.onaudioprocess callback of
startLiveSession: while the state is not listening the sample is
discarded; otherwise the stored Int16Array element is the JavaScript
Int16 conversion of sample * 32768. -/
def audioProcessSample (st : SessionState) (sample : ℚ) : Option ℤ :=
  if st = SessionState.listening then some (toInt16 (sample * 32768)) else none

/-- Embeds togglePause of src/App.tsx: flip between paused and listening,
and call stopAllPlayback exactly when the new state is paused. -/
def togglePause (s : AppState) : AppState :=
  let newState :=
    if s.state = SessionState.paused then SessionState.listening else SessionState.paused
  let s1 := { s with state := newState }
  if newState = SessionState.paused then stopAllPlayback s1 else s1

/-- Embeds endSession of src/App.tsx: stop the capture tracks and close
the transport (resource actions with no modelled state), stop all
playback, append the committed session transcript (when non-empty) to
the chat history, return to idle, clear the live caption, and set the
voiceSessionEnded flag. The uncommitted currentTranscription buffer is
not consulted. -/
def endSession (s : AppState) : AppState :=
  let s1 := stopAllPlayback s
  let s2 :=
    if s1.currentSessionTranscript.length > 0 then
      { s1 with chatHistory := s1.chatHistory ++ s1.currentSessionTranscript }
    else s1
  { s2 with state := SessionState.idle, activeItem := none, voiceSessionEnded := true }

/-- Embeds startLiveSession of src/App.tsx, with the outcome of the two
awaited acquisitions (getUserMedia and ai.live.connect) passed as a
boolean: the handler first enters listening and resets the per-session
refs, then on a thrown failure the catch block sets the error state and
shows the microphone toast; no retry happens. -/
def startLiveSession (s : AppState) (acquired : Bool) : AppState :=
  let s1 := { s with
      state := SessionState.listening,
      voiceSessionEnded := false,
      showFeedbackModal := false,
      currentSessionTranscript := [],
      currentTranscription := "" }
  if acquired then s1
  else { s1 with state := SessionState.error, toast := some "Enable microphone permissions" }

/-- Message carrying one input transcription delta and nothing else. -/
def mkInputDelta (t : String) : ServerMessage :=
  { inputTranscription := some t, outputTranscription := none, turnComplete := false,
    modelTurn := false, audioData := none, interrupted := false }

/-- Message carrying one output transcription delta and nothing else. -/
def mkOutputDelta (t : String) : ServerMessage :=
  { inputTranscription := none, outputTranscription := some t, turnComplete := false,
    modelTurn := false, audioData := none, interrupted := false }

/-- Message carrying only the turnComplete marker, with or without an
accompanying modelTurn object. -/
def turnCompleteMessage (modelTurn : Bool) : ServerMessage :=
  { inputTranscription := none, outputTranscription := none, turnComplete := true,
    modelTurn := modelTurn, audioData := none, interrupted := false }

/-- Message carrying one inline audio chunk of the model turn. -/
def mkAudioMessage (bytes : List ℕ) : ServerMessage :=
  { inputTranscription := none, outputTranscription := none, turnComplete := false,
    modelTurn := true, audioData := some bytes, interrupted := false }

/-- Message carrying only the interrupted flag. -/
def interruptedMessage : ServerMessage :=
  { inputTranscription := none, outputTranscription := none, turnComplete := false,
    modelTurn := false, audioData := none, interrupted := true }

/-- Scheduled units are separated: each unit ends no later than the next
one starts. -/
def unitsSeparated (l : List SchedUnit) : Prop :=
  List.Chain' (fun a b => a.start + a.duration ≤ b.start) l

/-- The playback cursor is at or past the end of the last scheduled
unit. -/
def cursorAhead (s : AppState) : Prop :=
  ∀ u ∈ s.sources.getLast?, u.start + u.duration ≤ s.nextStartTime

/-- A fresh listening session state, as established by startLiveSession
right before the first server message arrives. -/
def initialListening : AppState :=
  { state := SessionState.listening, currentTranscription := "",
    currentSessionTranscript := [], chatHistory := [], activeItem := none,
    nextStartTime := 0, sources := [], toast := none,
    voiceSessionEnded := false, showFeedbackModal := false }

/-- A listening session with one pending playback unit and an advanced
cursor, used as a concrete evaluation state. -/
def busyListening : AppState :=
  { initialListening with sources := [{ start := 5, duration := 2 }], nextStartTime := 9 }

/-- A listening session with one active playback unit at the clock
origin, used as a concrete evaluation state. -/
def playingListening : AppState :=
  { initialListening with sources := [{ start := 0, duration := 1 }], nextStartTime := 1 }

/-- A paused session with one remembered playback unit, used as a
concrete evaluation state. -/
def pausedWithUnit : AppState :=
  { initialListening with
    state := SessionState.paused,
    sources := [{ start := 4, duration := 1 }],
    nextStartTime := 6 }

/-- A listening session with one committed voice turn and an in-flight
uncommitted transcription, used as a concrete evaluation state. -/
def sessionWithPartial : AppState :=
  { initialListening with
    currentTranscription := "Thik ",
    currentSessionTranscript := [{ role := Role.user, text := "Namaste", isVoice := true }] }

theorem sextet_roundtrip : ∀ v : ℕ, v < 64 → charToSextet (sextetToChar v) = v := by
  decide

theorem sextet_ne_pad : ∀ v : ℕ, v < 64 → sextetToChar v ≠ '=' := by
  decide

theorem ratTrunc_bounds (x : ℚ) (h1 : -32768 ≤ x) (h2 : x < 32768) :
    -32768 ≤ ratTrunc x ∧ ratTrunc x ≤ 32767 := by
  unfold ratTrunc
  split
  case isTrue h =>
    have hlo : (0 : ℤ) ≤ ⌊x⌋ := Int.floor_nonneg.mpr h
    have hhi : ⌊x⌋ < 32768 :=
      Int.floor_lt.mpr (show x < ((32768 : ℤ) : ℚ) by exact_mod_cast h2)
    omega
  case isFalse h =>
    push_neg at h
    have hhi : ⌈x⌉ ≤ 0 :=
      Int.ceil_le.mpr (show x ≤ ((0 : ℤ) : ℚ) by exact_mod_cast le_of_lt h)
    have hlo : ((-32768 : ℤ) : ℚ) ≤ (⌈x⌉ : ℚ) :=
      le_trans (by exact_mod_cast h1) (Int.le_ceil x)
    have hlo2 : (-32768 : ℤ) ≤ ⌈x⌉ := by exact_mod_cast hlo
    omega

theorem toInt16_eq_ratTrunc (x : ℚ) (h1 : -32768 ≤ x) (h2 : x < 32768) :
    toInt16 x = ratTrunc x := by
  have hb := ratTrunc_bounds x h1 h2
  unfold toInt16
  omega

/-- Claim C10: decoding the base64 audio encoding of any byte array
returns the original byte array, byte for byte:
decodeAudio (encodeAudio bytes) = bytes. -/
theorem decodeAudio_encodeAudio_roundtrip (l : List ℕ) (h : ∀ b ∈ l, b < 256) :
    decodeAudio (encodeAudio l) = l := by
  induction l using encodeAudio.induct with
  | case1 => rfl
  | case2 b1 =>
      have hb1 : b1 < 256 := h b1 (by simp)
      have e1 := sextet_roundtrip (b1 / 4) (by omega)
      have e2 := sextet_roundtrip (b1 % 4 * 16) (by omega)
      rw [encodeAudio, decodeAudio, if_pos rfl, e1, e2]
      simp only [List.cons.injEq, and_true]
      omega
  | case3 b1 b2 =>
      have hb1 : b1 < 256 := h b1 (by simp)
      have hb2 : b2 < 256 := h b2 (by simp)
      have e1 := sextet_roundtrip (b1 / 4) (by omega)
      have e2 := sextet_roundtrip (b1 % 4 * 16 + b2 / 16) (by omega)
      have e3 := sextet_roundtrip (b2 % 16 * 4) (by omega)
      have n3 := sextet_ne_pad (b2 % 16 * 4) (by omega)
      rw [encodeAudio, decodeAudio, if_neg n3, if_pos rfl, e1, e2, e3]
      simp only [List.cons.injEq, and_true]
      exact ⟨by omega, by omega⟩
  | case4 b1 b2 b3 rest ih =>
      have hb1 : b1 < 256 := h b1 (by simp)
      have hb2 : b2 < 256 := h b2 (by simp)
      have hb3 : b3 < 256 := h b3 (by simp)
      have e1 := sextet_roundtrip (b1 / 4) (by omega)
      have e2 := sextet_roundtrip (b1 % 4 * 16 + b2 / 16) (by omega)
      have e3 := sextet_roundtrip (b2 % 16 * 4 + b3 / 64) (by omega)
      have e4 := sextet_roundtrip (b3 % 64) (by omega)
      have n3 := sextet_ne_pad (b2 % 16 * 4 + b3 / 64) (by omega)
      have n4 := sextet_ne_pad (b3 % 64) (by omega)
      have ihh := ih (fun b hb => h b (by simp [hb]))
      rw [encodeAudio, decodeAudio, if_neg n3, if_neg n4, e1, e2, e3, e4, ihh]
      simp only [List.cons.injEq, and_true]
      exact ⟨by omega, by omega, by omega⟩

/-- Witness for claim C10 at the concrete byte array [77, 97, 110, 251]. -/
theorem decodeAudio_encodeAudio_roundtrip_witness :
    (∀ b ∈ ([77, 97, 110, 251] : List ℕ), b < 256) ∧
    decodeAudio (encodeAudio [77, 97, 110, 251]) = [77, 97, 110, 251] :=
  ⟨by decide, decodeAudio_encodeAudio_roundtrip [77, 97, 110, 251] (by decide)⟩

/-- Claim C2 (amended): while the state is Listening, each microphone
sample is converted as toInt16 (sample * 32768) with no clamping; for
samples in [-1, 1) the result is the truncation of sample * 32768 toward
zero, which already lies in the Int16 range, but a sample of exactly 1.0
wraps to -32768 instead of clamping to 32767. -/
theorem pcm_conversion_truncates_in_range (q : ℚ) (h1 : -1 ≤ q) (h2 : q < 1) :
    audioProcessSample SessionState.listening q = some (ratTrunc (q * 32768)) ∧
    -32768 ≤ ratTrunc (q * 32768) ∧ ratTrunc (q * 32768) ≤ 32767 := by
  have hlo : (-32768 : ℚ) ≤ q * 32768 := by nlinarith
  have hhi : q * 32768 < 32768 := by nlinarith
  have hb := ratTrunc_bounds _ hlo hhi
  refine ⟨?_, hb.1, hb.2⟩
  simp [audioProcessSample, toInt16_eq_ratTrunc _ hlo hhi]

/-- Witness for claim C2 (amended) at the concrete sample 1/2. -/
theorem pcm_conversion_truncates_in_range_witness :
    (-1 ≤ (1/2 : ℚ)) ∧ ((1/2 : ℚ) < 1) ∧
    (audioProcessSample SessionState.listening (1/2) = some (ratTrunc ((1/2 : ℚ) * 32768)) ∧
     -32768 ≤ ratTrunc ((1/2 : ℚ) * 32768) ∧ ratTrunc ((1/2 : ℚ) * 32768) ≤ 32767) :=
  ⟨by norm_num, by norm_num,
   pcm_conversion_truncates_in_range (1/2) (by norm_num) (by norm_num)⟩

/-- Counterexample to claim C2 as stated: the capture pipeline does not
clamp; at the full-scale sample 1.0 while Listening it stores -32768,
a negative value, rather than the maximum positive Int16 value 32767. -/
theorem pcm_full_scale_sample_wraps :
    audioProcessSample SessionState.listening 1 = some (-32768) ∧
    ((-32768 : ℤ) < 0 ∧ (-32768 : ℤ) ≠ 32767) := by
  refine ⟨?_, by decide⟩
  have ht : ratTrunc ((32768 : ℚ)) = 32768 := by norm_num [ratTrunc]
  norm_num [audioProcessSample, toInt16, ht]

/-- Claim C1 (failing-input evaluation): with the single shared buffer of
src/App.tsx, a user delta followed by an AI delta and one TurnComplete
yields ONE finalized turn whose text merges both speakers, not two
per-speaker turns; the AI text is interleaved into the user bubble. -/
theorem single_buffer_merges_speakers :
    (runMessages initialListening
      [(mkInputDelta "Hello ", 0), (mkOutputDelta "Hi", 0),
       (turnCompleteMessage false, 0)]).currentSessionTranscript
      = [{ role := Role.user, text := "Hello Hi", isVoice := true }] ∧
    (runMessages initialListening
      [(mkInputDelta "Hello ", 0), (mkOutputDelta "Hi", 0),
       (turnCompleteMessage false, 0)]).currentSessionTranscript.length ≠ 2 := by
  decide

/-- Claim C8 (failing-input evaluation): when the user channel has deltas
but the AI channel has none, a TurnComplete whose message carries a
modelTurn object finalizes a turn attributed to the AI speaker — the
shared buffer of src/App.tsx produces a turn for a channel that received
no deltas. The buffer and live caption are cleared as the claim says. -/
theorem ai_turn_emitted_without_ai_deltas :
    (runMessages initialListening
      [(mkInputDelta "Hello", 0), (turnCompleteMessage true, 0)]).currentSessionTranscript
      = [{ role := Role.ai, text := "Hello", isVoice := true }] ∧
    (runMessages initialListening
      [(mkInputDelta "Hello", 0), (turnCompleteMessage true, 0)]).currentTranscription = "" ∧
    (runMessages initialListening
      [(mkInputDelta "Hello", 0), (turnCompleteMessage true, 0)]).activeItem = none := by
  decide

theorem foldl_append_shift (ts : List String) :
    ∀ a : String, ts.foldl (fun r s => r ++ s) a = a ++ ts.foldl (fun r s => r ++ s) "" := by
  induction ts with
  | nil => intro a; simp [List.foldl_nil, String.append_empty]
  | cons t ts ih =>
      intro a
      simp only [List.foldl_cons]
      rw [ih (a ++ t), ih ("" ++ t), String.empty_append, String.append_assoc]

theorem join_cons (t : String) (ts : List String) :
    String.join (t :: ts) = t ++ String.join ts := by
  show List.foldl (fun r s => r ++ s) "" (t :: ts)
      = t ++ List.foldl (fun r s => r ++ s) "" ts
  rw [List.foldl_cons, String.empty_append]
  exact foldl_append_shift ts t

theorem onMessage_inputDelta (s : AppState) (t : String) (c : ℚ)
    (h : s.state ≠ SessionState.paused) :
    onMessage s (mkInputDelta t) c =
      { s with currentTranscription := s.currentTranscription ++ t,
               activeItem := some (liveInputItem (s.currentTranscription ++ t)) } := by
  simp [onMessage, mkInputDelta, h]

theorem onMessage_outputDelta (s : AppState) (t : String) (c : ℚ)
    (h : s.state ≠ SessionState.paused) :
    onMessage s (mkOutputDelta t) c =
      { s with currentTranscription := s.currentTranscription ++ t,
               activeItem := some (liveOutputItem (s.currentTranscription ++ t)) } := by
  simp [onMessage, mkOutputDelta, h]

theorem onMessage_turnComplete (s : AppState) (mt : Bool) (c : ℚ)
    (h : s.state ≠ SessionState.paused) :
    onMessage s (turnCompleteMessage mt) c =
      { s with
          currentSessionTranscript :=
            if hasContent s.currentTranscription then
              s.currentSessionTranscript ++
                [{ role := if mt then Role.ai else Role.user,
                   text := s.currentTranscription, isVoice := true }]
            else s.currentSessionTranscript,
          currentTranscription := "", activeItem := none } := by
  by_cases hc : hasContent s.currentTranscription <;>
    simp [onMessage, turnCompleteMessage, h, hc]

theorem runInputDeltas (ds : List String) (s : AppState)
    (h : s.state ≠ SessionState.paused) :
    (runMessages s (ds.map fun t => (mkInputDelta t, 0))).currentTranscription
        = s.currentTranscription ++ String.join ds ∧
    (runMessages s (ds.map fun t => (mkInputDelta t, 0))).currentSessionTranscript
        = s.currentSessionTranscript ∧
    (runMessages s (ds.map fun t => (mkInputDelta t, 0))).state = s.state := by
  induction ds generalizing s with
  | nil =>
      refine ⟨?_, rfl, rfl⟩
      show s.currentTranscription = s.currentTranscription ++ String.join []
      rw [show String.join [] = "" from rfl, String.append_empty]
  | cons t ts ih =>
      simp only [List.map_cons, runMessages, List.foldl_cons]
      rw [onMessage_inputDelta s t 0 h]
      have ih2 := ih { s with currentTranscription := s.currentTranscription ++ t,
                              activeItem := some (liveInputItem (s.currentTranscription ++ t)) } h
      simp only [runMessages] at ih2
      refine ⟨?_, ih2.2.1, ih2.2.2⟩
      rw [ih2.1, join_cons, String.append_assoc]

theorem runOutputDeltas (ds : List String) (s : AppState)
    (h : s.state ≠ SessionState.paused) :
    (runMessages s (ds.map fun t => (mkOutputDelta t, 0))).currentTranscription
        = s.currentTranscription ++ String.join ds ∧
    (runMessages s (ds.map fun t => (mkOutputDelta t, 0))).currentSessionTranscript
        = s.currentSessionTranscript ∧
    (runMessages s (ds.map fun t => (mkOutputDelta t, 0))).state = s.state := by
  induction ds generalizing s with
  | nil =>
      refine ⟨?_, rfl, rfl⟩
      show s.currentTranscription = s.currentTranscription ++ String.join []
      rw [show String.join [] = "" from rfl, String.append_empty]
  | cons t ts ih =>
      simp only [List.map_cons, runMessages, List.foldl_cons]
      rw [onMessage_outputDelta s t 0 h]
      have ih2 := ih { s with currentTranscription := s.currentTranscription ++ t,
                              activeItem := some (liveOutputItem (s.currentTranscription ++ t)) } h
      simp only [runMessages] at ih2
      refine ⟨?_, ih2.2.1, ih2.2.2⟩
      rw [ih2.1, join_cons, String.append_assoc]

/-- Claim C3: for a sequence of deltas arriving on a single channel (the
other channel silent) followed by a TurnComplete, starting from a fresh
listening buffer, exactly one turn is finalized and its text is the
concatenation of the deltas in arrival order. -/
theorem single_channel_turn_text_is_delta_concat (ds : List String) (s : AppState)
    (hs : s.state = SessionState.listening)
    (hbuf : s.currentTranscription = "")
    (hne : hasContent (String.join ds) = true) :
    (runMessages s ((ds.map fun t => (mkInputDelta t, 0))
        ++ [(turnCompleteMessage false, 0)])).currentSessionTranscript
      = s.currentSessionTranscript
          ++ [{ role := Role.user, text := String.join ds, isVoice := true }] ∧
    (runMessages s ((ds.map fun t => (mkOutputDelta t, 0))
        ++ [(turnCompleteMessage true, 0)])).currentSessionTranscript
      = s.currentSessionTranscript
          ++ [{ role := Role.ai, text := String.join ds, isVoice := true }] := by
  have hnp : s.state ≠ SessionState.paused := by rw [hs]; exact fun hx => nomatch hx
  constructor
  · obtain ⟨h1, h2, h3⟩ := runInputDeltas ds s hnp
    unfold runMessages at h1 h2 h3 ⊢
    rw [List.foldl_append, List.foldl_cons, List.foldl_nil]
    rw [onMessage_turnComplete _ false 0 (by rw [h3, hs]; exact fun hx => nomatch hx)]
    rw [hbuf, String.empty_append] at h1
    simp [h1, h2, hne]
  · obtain ⟨h1, h2, h3⟩ := runOutputDeltas ds s hnp
    unfold runMessages at h1 h2 h3 ⊢
    rw [List.foldl_append, List.foldl_cons, List.foldl_nil]
    rw [onMessage_turnComplete _ true 0 (by rw [h3, hs]; exact fun hx => nomatch hx)]
    rw [hbuf, String.empty_append] at h1
    simp [h1, h2, hne]

/-- Witness for claim C3 at the spec example deltas, run from a fresh
listening session. -/
theorem single_channel_turn_text_is_delta_concat_witness :
    (initialListening.state = SessionState.listening) ∧
    (initialListening.currentTranscription = "") ∧
    (hasContent (String.join ["Mera ", "plan ", "kya ", "hai?"]) = true) ∧
    ((runMessages initialListening ((["Mera ", "plan ", "kya ", "hai?"].map
          fun t => (mkInputDelta t, 0)) ++ [(turnCompleteMessage false, 0)])).currentSessionTranscript
        = initialListening.currentSessionTranscript
            ++ [{ role := Role.user, text := String.join ["Mera ", "plan ", "kya ", "hai?"],
                  isVoice := true }] ∧
     (runMessages initialListening ((["Mera ", "plan ", "kya ", "hai?"].map
          fun t => (mkOutputDelta t, 0)) ++ [(turnCompleteMessage true, 0)])).currentSessionTranscript
        = initialListening.currentSessionTranscript
            ++ [{ role := Role.ai, text := String.join ["Mera ", "plan ", "kya ", "hai?"],
                  isVoice := true }]) :=
  ⟨rfl, rfl, by decide,
   single_channel_turn_text_is_delta_concat ["Mera ", "plan ", "kya ", "hai?"]
     initialListening rfl rfl (by decide)⟩

theorem bufferDuration_nonneg (bytes : List ℕ) : 0 ≤ bufferDuration bytes := by
  unfold bufferDuration
  positivity

theorem onMessage_audio (s : AppState) (bytes : List ℕ) (c : ℚ)
    (h : s.state ≠ SessionState.paused) :
    onMessage s (mkAudioMessage bytes) c =
      { s with
          sources := s.sources ++ [{ start := max s.nextStartTime c,
                                     duration := bufferDuration bytes }],
          nextStartTime := max s.nextStartTime c + bufferDuration bytes } := by
  simp [onMessage, mkAudioMessage, h]

theorem onMessage_interrupted (s : AppState) (c : ℚ)
    (h : s.state ≠ SessionState.paused) :
    onMessage s interruptedMessage c = stopAllPlayback s := by
  simp [onMessage, interruptedMessage, h]

theorem startsMono : ∀ (l : List SchedUnit),
    List.Chain' (fun a b => a.start + a.duration ≤ b.start) l →
    (∀ u ∈ l, 0 ≤ u.duration) →
    List.Chain' (fun a b => a.start ≤ b.start) l
  | [], _, _ => List.chain'_nil
  | [a], _, _ => List.chain'_singleton a
  | a :: b :: t, h1, h2 => by
      rw [List.chain'_cons] at h1 ⊢
      refine ⟨?_, startsMono (b :: t) h1.2 (fun u hu => h2 u (by simp [hu]))⟩
      have hd : 0 ≤ a.duration := h2 a (by simp)
      have := h1.1
      linarith

theorem audioRun_inv (es : List (List ℕ × ℚ)) :
    ∀ (s : AppState), s.state ≠ SessionState.paused →
    unitsSeparated s.sources → cursorAhead s →
    (∀ u ∈ s.sources, 0 ≤ u.duration) →
    (runMessages s (es.map fun e => (mkAudioMessage e.1, e.2))).state = s.state ∧
    unitsSeparated (runMessages s (es.map fun e => (mkAudioMessage e.1, e.2))).sources ∧
    cursorAhead (runMessages s (es.map fun e => (mkAudioMessage e.1, e.2))) ∧
    (∀ u ∈ (runMessages s (es.map fun e => (mkAudioMessage e.1, e.2))).sources,
        0 ≤ u.duration) := by
  induction es with
  | nil =>
      intro s h1 h2 h3 h4
      exact ⟨rfl, h2, h3, h4⟩
  | cons e tl ih =>
      intro s h1 h2 h3 h4
      simp only [List.map_cons, runMessages, List.foldl_cons]
      rw [onMessage_audio s e.1 e.2 h1]
      have hsep : unitsSeparated (s.sources ++
          [{ start := max s.nextStartTime e.2, duration := bufferDuration e.1 }]) := by
        unfold unitsSeparated at h2 ⊢
        rw [List.chain'_append]
        refine ⟨h2, List.chain'_singleton _, ?_⟩
        intro x hx y hy
        simp only [List.head?_cons, Option.mem_def, Option.some.injEq] at hy
        subst hy
        exact le_trans (h3 x hx) (le_max_left _ _)
      have hcur : cursorAhead { s with
          sources := s.sources ++
            [{ start := max s.nextStartTime e.2, duration := bufferDuration e.1 }],
          nextStartTime := max s.nextStartTime e.2 + bufferDuration e.1 } := by
        intro v hv
        simp only [List.getLast?_concat, Option.mem_def, Option.some.injEq] at hv
        subst hv
        exact le_refl _
      have hdur : ∀ u ∈ s.sources ++
          [{ start := max s.nextStartTime e.2, duration := bufferDuration e.1 }],
          (0 : ℚ) ≤ u.duration := by
        intro u hu
        rcases List.mem_append.mp hu with hu1 | hu2
        · exact h4 u hu1
        · simp only [List.mem_singleton] at hu2
          subst hu2
          exact bufferDuration_nonneg e.1
      have := ih { s with
          sources := s.sources ++
            [{ start := max s.nextStartTime e.2, duration := bufferDuration e.1 }],
          nextStartTime := max s.nextStartTime e.2 + bufferDuration e.1 }
        h1 hsep hcur hdur
      simpa only [runMessages] using this

/-- Claim C4: each audio chunk is scheduled at max(nextStart, clock) and
the cursor then advances to start + bufferDuration; over any run of audio
chunk messages with no interruption, no stop, and no pause, the scheduled
units have non-decreasing start times and each unit ends no later than
the next one starts. -/
theorem playback_starts_gapless_monotone (s : AppState) (es : List (List ℕ × ℚ))
    (h1 : s.state ≠ SessionState.paused)
    (h2 : unitsSeparated s.sources)
    (h3 : cursorAhead s)
    (h4 : ∀ u ∈ s.sources, 0 ≤ u.duration) :
    (∀ (st : AppState) (bytes : List ℕ) (c : ℚ), st.state ≠ SessionState.paused →
        onMessage st (mkAudioMessage bytes) c =
          { st with
              sources := st.sources ++ [{ start := max st.nextStartTime c,
                                          duration := bufferDuration bytes }],
              nextStartTime := max st.nextStartTime c + bufferDuration bytes }) ∧
    unitsSeparated (runMessages s (es.map fun e => (mkAudioMessage e.1, e.2))).sources ∧
    List.Chain' (fun a b => a.start ≤ b.start)
      (runMessages s (es.map fun e => (mkAudioMessage e.1, e.2))).sources := by
  obtain ⟨hst, hsep, hcur, hdur⟩ := audioRun_inv es s h1 h2 h3 h4
  exact ⟨fun st bytes c hp => onMessage_audio st bytes c hp, hsep,
         startsMono _ hsep hdur⟩

/-- Witness for claim C4: two chunks scheduled from a fresh listening
session, at clock readings 0 and 1. -/
theorem playback_starts_gapless_monotone_witness :
    (initialListening.state ≠ SessionState.paused) ∧
    unitsSeparated initialListening.sources ∧
    cursorAhead initialListening ∧
    (∀ u ∈ initialListening.sources, 0 ≤ u.duration) ∧
    ((∀ (st : AppState) (bytes : List ℕ) (c : ℚ), st.state ≠ SessionState.paused →
        onMessage st (mkAudioMessage bytes) c =
          { st with
              sources := st.sources ++ [{ start := max st.nextStartTime c,
                                          duration := bufferDuration bytes }],
              nextStartTime := max st.nextStartTime c + bufferDuration bytes }) ∧
     unitsSeparated (runMessages initialListening
        ([([0, 0, 0, 0], 0), ([0, 0], 1)].map fun e => (mkAudioMessage e.1, e.2))).sources ∧
     List.Chain' (fun a b => a.start ≤ b.start)
       (runMessages initialListening
         ([([0, 0, 0, 0], 0), ([0, 0], 1)].map fun e => (mkAudioMessage e.1, e.2))).sources) :=
  ⟨by decide, List.chain'_nil, by simp [cursorAhead, initialListening], by simp [initialListening],
   playback_starts_gapless_monotone initialListening [([0, 0, 0, 0], 0), ([0, 0], 1)]
     (by decide) List.chain'_nil (by simp [cursorAhead, initialListening])
     (by simp [initialListening])⟩


/-- Claim C5: processing an Interrupted event empties the active playback
set and resets the next-start cursor to 0; an audio chunk processed next
(with no intervening chunks) is scheduled exactly at the current clock
time, hence at a time at or after it, never at the pre-interruption
cursor value. -/
theorem interruption_resets_cursor_and_set (s : AppState) (bytes : List ℕ) (c0 c : ℚ)
    (hp : s.state ≠ SessionState.paused) (hc : 0 ≤ c) :
    (onMessage s interruptedMessage c0).sources = [] ∧
    (onMessage s interruptedMessage c0).nextStartTime = 0 ∧
    (onMessage (onMessage s interruptedMessage c0) (mkAudioMessage bytes) c).sources
      = [{ start := c, duration := bufferDuration bytes }] ∧
    (∀ u ∈ (onMessage (onMessage s interruptedMessage c0) (mkAudioMessage bytes) c).sources,
        c ≤ u.start) := by
  rw [onMessage_interrupted s c0 hp]
  have hp1 : (stopAllPlayback s).state ≠ SessionState.paused := hp
  rw [onMessage_audio _ bytes c hp1]
  refine ⟨rfl, rfl, ?_, ?_⟩
  · simp [stopAllPlayback, max_eq_right hc]
  · intro u hu
    simp [stopAllPlayback, max_eq_right hc] at hu
    rw [hu]

/-- Witness for claim C5: an interruption arriving while a unit is
pending at cursor 9, followed by a chunk at clock time 3. -/
theorem interruption_resets_cursor_and_set_witness :
    (busyListening.state ≠ SessionState.paused) ∧
    ((0 : ℚ) ≤ 3) ∧
    ((onMessage busyListening interruptedMessage 2).sources = [] ∧
     (onMessage busyListening interruptedMessage 2).nextStartTime = 0 ∧
     (onMessage (onMessage busyListening interruptedMessage 2)
         (mkAudioMessage [0, 0]) 3).sources
       = [{ start := 3, duration := bufferDuration [0, 0] }] ∧
     (∀ u ∈ (onMessage (onMessage busyListening interruptedMessage 2)
         (mkAudioMessage [0, 0]) 3).sources,
        (3 : ℚ) ≤ u.start)) :=
  ⟨by decide, by norm_num,
   interruption_resets_cursor_and_set busyListening [0, 0] 2 3 (by decide) (by norm_num)⟩

/-- Claim C6: togglePause during Listening moves the session to Paused
and immediately empties the active playback set and resets the cursor;
togglePause during Paused moves back to Listening and leaves the
playback set and cursor untouched. -/
theorem togglePause_stops_playback_once (s t : AppState)
    (hs : s.state = SessionState.listening) (ht : t.state = SessionState.paused) :
    (togglePause s).state = SessionState.paused ∧
    (togglePause s).sources = [] ∧
    (togglePause s).nextStartTime = 0 ∧
    (togglePause t).state = SessionState.listening ∧
    (togglePause t).sources = t.sources ∧
    (togglePause t).nextStartTime = t.nextStartTime := by
  simp [togglePause, stopAllPlayback, hs, ht]

/-- Witness for claim C6: a listening session with one active unit, and
a paused session with one remembered unit. -/
theorem togglePause_stops_playback_once_witness :
    (playingListening.state = SessionState.listening) ∧
    (pausedWithUnit.state = SessionState.paused) ∧
    ((togglePause playingListening).state = SessionState.paused ∧
     (togglePause playingListening).sources = [] ∧
     (togglePause playingListening).nextStartTime = 0 ∧
     (togglePause pausedWithUnit).state = SessionState.listening ∧
     (togglePause pausedWithUnit).sources = pausedWithUnit.sources ∧
     (togglePause pausedWithUnit).nextStartTime = pausedWithUnit.nextStartTime) :=
  ⟨rfl, rfl, togglePause_stops_playback_once playingListening pausedWithUnit rfl rfl⟩

/-- Claim C7: ending the session while the shared buffer still holds
uncommitted partial text appends exactly the previously committed turns
to the chat history (no turn is created for the partial text), returns
the session to Idle, stops playback, and clears the live caption. -/
theorem endSession_drops_uncommitted_partial (s : AppState)
    (h : hasContent s.currentTranscription = true) :
    (endSession s).chatHistory = s.chatHistory ++ s.currentSessionTranscript ∧
    (endSession s).state = SessionState.idle ∧
    (endSession s).sources = [] ∧
    (endSession s).nextStartTime = 0 ∧
    (endSession s).activeItem = none := by
  cases hcc : s.currentSessionTranscript with
  | nil => simp [endSession, stopAllPlayback, hcc]
  | cons a l => simp [endSession, stopAllPlayback, hcc]

/-- Witness for claim C7: a session with one committed turn and an
in-flight partial transcription. -/
theorem endSession_drops_uncommitted_partial_witness :
    (hasContent sessionWithPartial.currentTranscription = true) ∧
    ((endSession sessionWithPartial).chatHistory
        = sessionWithPartial.chatHistory ++ sessionWithPartial.currentSessionTranscript ∧
     (endSession sessionWithPartial).state = SessionState.idle ∧
     (endSession sessionWithPartial).sources = [] ∧
     (endSession sessionWithPartial).nextStartTime = 0 ∧
     (endSession sessionWithPartial).activeItem = none) :=
  ⟨by decide, endSession_drops_uncommitted_partial sessionWithPartial (by decide)⟩

/-- Claim C9: a failed device or transport acquisition during start
leaves the session in the Error state with the user-facing microphone
notice and no retry; the Error state is not terminal — a subsequent
successful start from it enters Listening with a fresh session
transcript and an empty transcription buffer. -/
theorem start_failure_enters_error_and_restart_is_fresh (s : AppState) :
    (startLiveSession s false).state = SessionState.error ∧
    (startLiveSession s false).toast = some "Enable microphone permissions" ∧
    (startLiveSession (startLiveSession s false) true).state = SessionState.listening ∧
    (startLiveSession (startLiveSession s false) true).currentSessionTranscript = [] ∧
    (startLiveSession (startLiveSession s false) true).currentTranscription = "" := by
  simp [startLiveSession]
